import Mathlib

/-!
Verification development for the browserless-io PDF generation service.

The embedding below models the core of the repository:
* `src/src/services/RedisFsCacheProvider.ts` — the hybrid Redis+filesystem cache
  (`generateCacheFilePath`, `get`, `set`);
* `src/src/lib/redis.ts` — the mock redis client used when `REDIS_URL` is unset;
* `src/src/app/api/generate-pdf/route.ts` — the orchestrator (`POST`): the stream
  tee and the response/cleanup ordering on the cache-miss path;
* `src/src/services/BrowserlessPdfGenerator.ts` — `waitForNetworkIdle` (the
  settlement detector) and the `cleanup` closure of `generate`.

Byte streams are modelled as lists of bytes (`List Nat`), the Redis index and the
filesystem as functions from keys/paths to optional values, and the asynchronous
control flow of the route as explicit traces of actions in the order the Node.js
event loop executes them.
-/

/-! ### Decimal rendering of `Date.now()`

`generateCacheFilePath` interpolates `Date.now()` into the file name, which in
JavaScript renders the number in decimal.  The embedding uses `Nat.repr`.  The
helpers below characterise `Nat.repr`: `digitsOf n` is the most-significant-first
digit-character list of `n`, and `valOf` parses it back. -/

/-- Most-significant-first decimal digit characters of a natural number. -/
def digitsOf (n : Nat) : List Char :=
  if h : n < 10 then [Nat.digitChar n]
  else digitsOf (n / 10) ++ [Nat.digitChar (n % 10)]
decreasing_by exact Nat.div_lt_self (by omega) (by omega)

/-- Numeric value of a digit character. -/
def charVal (c : Char) : Nat := c.toNat - 48

/-- Parse a most-significant-first digit-character list back to a number. -/
def valOf (l : List Char) : Nat := l.foldl (fun a c => 10 * a + charVal c) 0

theorem charVal_digitChar {d : Nat} (h : d < 10) :
    charVal (Nat.digitChar d) = d := by
  interval_cases d <;> rfl

theorem digitChar_isDigit {d : Nat} (h : d < 10) :
    (Nat.digitChar d).isDigit = true := by
  interval_cases d <;> rfl

theorem digitsOf_lt {n : Nat} (h : n < 10) : digitsOf n = [Nat.digitChar n] := by
  rw [digitsOf]
  simp [h]

theorem digitsOf_ge {n : Nat} (h : ¬ n < 10) :
    digitsOf n = digitsOf (n / 10) ++ [Nat.digitChar (n % 10)] := by
  conv_lhs => rw [digitsOf]
  simp [h]

theorem toDigitsCore_eq_digitsOf (fuel n : Nat) (ds : List Char) (h : n < fuel) :
    Nat.toDigitsCore 10 fuel n ds = digitsOf n ++ ds := by
  induction fuel generalizing n ds with
  | zero => omega
  | succ fuel ih =>
    unfold Nat.toDigitsCore
    by_cases hz : n / 10 = 0
    · have hn : n < 10 := by omega
      have hm : n % 10 = n := Nat.mod_eq_of_lt hn
      simp [hz, digitsOf_lt hn, hm]
    · have hn : ¬ n < 10 := by
        intro hlt
        exact hz (Nat.div_eq_of_lt hlt)
      have hdiv : n / 10 < fuel := by
        have h1 : n / 10 < n := Nat.div_lt_self (by omega) (by omega)
        omega
      simp only [hz, if_false]
      rw [ih (n / 10) _ hdiv, digitsOf_ge hn]
      simp

theorem toDigits_eq_digitsOf (n : Nat) :
    Nat.toDigits 10 n = digitsOf n :=  by
  rw [Nat.toDigits, toDigitsCore_eq_digitsOf (n + 1) n [] (Nat.lt_succ_self n)]
  simp

theorem valOf_append_digit (l : List Char) (c : Char) :
    valOf (l ++ [c]) = 10 * valOf l + charVal c := by
  simp [valOf, List.foldl_append]

theorem valOf_digitsOf (n : Nat) : valOf (digitsOf n) = n := by
  induction n using Nat.strong_induction_on with
  | _ n ih =>
    by_cases h : n < 10
    · rw [digitsOf_lt h]
      simp [valOf, charVal_digitChar h]
    · rw [digitsOf_ge h, valOf_append_digit]
      have hdiv : n / 10 < n := Nat.div_lt_self (by omega) (by omega)
      rw [ih (n / 10) hdiv, charVal_digitChar (Nat.mod_lt n (by omega))]
      omega

theorem digitsOf_injective {m n : Nat} (h : digitsOf m = digitsOf n) : m = n := by
  have := valOf_digitsOf m
  rw [h, valOf_digitsOf] at this
  omega

theorem mem_digitsOf_isDigit (n : Nat) {c : Char} (hc : c ∈ digitsOf n) :
    c.isDigit = true := by
  induction n using Nat.strong_induction_on generalizing c with
  | _ n ih =>
    by_cases h : n < 10
    · rw [digitsOf_lt h, List.mem_singleton] at hc
      subst hc
      exact digitChar_isDigit h
    · rw [digitsOf_ge h, List.mem_append, List.mem_singleton] at hc
      rcases hc with hc | hc
      · exact ih (n / 10) (Nat.div_lt_self (by omega) (by omega)) hc
      · subst hc
        exact digitChar_isDigit (Nat.mod_lt n (by omega))

theorem repr_data (n : Nat) : (Nat.repr n).data = digitsOf n := by
  rw [Nat.repr, toDigits_eq_digitsOf]
  rfl

theorem repr_injective {m n : Nat} (h : Nat.repr m = Nat.repr n) : m = n := by
  apply digitsOf_injective
  rw [← repr_data, ← repr_data, h]

/-! ### RedisFsCacheProvider (`src/src/services/RedisFsCacheProvider.ts`)

State of the cache boundary: the Redis index (redis key → stored blob path),
the expiry recorded with each index entry (`SET ... EX ttl`), and the filesystem
(path → byte content, `none` meaning the file does not exist). -/

/-- Combined state of the Redis index and the blob filesystem. -/
structure CacheState where
  redis : String → Option String
  ttl : String → Option Nat
  fs : String → Option (List Nat)

/-- Pointwise update of a lookup function. -/
def updateMap {α : Type} (f : String → Option α) (k : String) (v : Option α) :
    String → Option α :=
  fun x => if x = k then v else f x

/-- `getCacheKey` (RedisFsCacheProvider.ts line 35): prepend `pdfcache:`. -/
def getCacheKey (key : String) : String := "pdfcache:" ++ key

/-- The character class the sanitizer keeps: the regex `[^a-z0-9_-]/gi`
replaces everything outside `[a-zA-Z0-9_-]`. -/
def isSafeChar (c : Char) : Bool :=
  ('a' ≤ c && c ≤ 'z') || ('A' ≤ c && c ≤ 'Z') || ('0' ≤ c && c ≤ '9') ||
    c == '_' || c == '-'

/-- One step of `key.replace(/[^a-z0-9_-]/gi, '_')`. -/
def sanitizeChar (c : Char) : Char := if isSafeChar c then c else '_'

/-- `key.replace(/[^a-z0-9_-]/gi, '_').substring(0, 200)`
(RedisFsCacheProvider.ts line 41). -/
def sanitizeKey (key : String) : String :=
  ((key.data.map sanitizeChar).take 200).asString

/-- `generateCacheFilePath` (RedisFsCacheProvider.ts lines 39-43):
`path.flatten(cacheDir, sanitized + '_' + Date.now() + '.pdf')`.  Since the file
name component contains no separators, `path.flatten` is plain concatenation with
`/`.  `now` stands for the `Date.now()` reading. -/
def generateCacheFilePath (cacheDir key : String) (now : Nat) : String :=
  cacheDir ++ "/" ++ sanitizeKey key ++ "_" ++ Nat.repr now ++ ".pdf"

/-- Outcome of draining a source stream through `pipeline` into the blob file:
either the full byte content arrives, or the stream fails with an error after a
partially written prefix. -/
inductive StreamData where
  | ok (bytes : List Nat)
  | err (partBytes : List Nat) (msg : String)

/-- `RedisFsCacheProvider.set` (lines 67-98).  `pipeline(sourceStream,
cacheWriteStream)` writes the blob; on success the Redis index entry is written
with its TTL (`redis.set(redisKey, tempFilePath, 'EX', ttlSeconds)`); on stream
failure the partially written file is unlinked, the index is untouched, and the
original error is re-thrown. -/
def RedisFsCacheProvider.set (cacheDir key : String) (src : StreamData)
    (ttlSeconds now : Nat) (st : CacheState) : CacheState × Except String Unit :=
  let redisKey := getCacheKey key
  let tempFilePath := generateCacheFilePath cacheDir key now
  match src with
  | .ok bytes =>
      ({ redis := updateMap st.redis redisKey (some tempFilePath),
         ttl := updateMap st.ttl redisKey (some ttlSeconds),
         fs := updateMap st.fs tempFilePath (some bytes) },
       Except.ok ())
  | .err _ msg =>
      ({ redis := st.redis,
         ttl := st.ttl,
         fs := updateMap st.fs tempFilePath none },
       Except.error msg)

/-- `RedisFsCacheProvider.get` (lines 45-65).  Look up the index; on a miss
return `none`.  On a hit check the blob file: if it exists return its content
(the read stream), otherwise delete the stale index entry (`redis.del`) and
return `none`.  The only fallible operation of the stale case (`fsp.access`) is
caught by the source, so the model is total: the stale-blob case never raises. -/
def RedisFsCacheProvider.get (key : String) (st : CacheState) :
    CacheState × Option (List Nat) :=
  let redisKey := getCacheKey key
  match st.redis redisKey with
  | none => (st, none)
  | some cachedPath =>
    match st.fs cachedPath with
    | some bytes => (st, some bytes)
    | none =>
        ({ redis := updateMap st.redis redisKey none,
           ttl := updateMap st.ttl redisKey none,
           fs := st.fs },
         none)

/-! ### Mock redis client (`src/src/lib/redis.ts` lines 11-22)

When `REDIS_URL` is unset the exported client is a mock whose `get` always
returns `null` and whose `set` returns `null` and stores nothing. -/

/-- The mock client's `get`: always `null`. -/
def mockRedis.get (_key : String) : Option String := none

/-- The mock client's `set`: a no-op returning `null` (signature mirrors
`set(key, value, mode, duration)`). -/
def mockRedis.set (_key _value _mode : String) (_duration : Nat) : Option String :=
  none

/-! ### Stream tee (`src/src/app/api/generate-pdf/route.ts` lines 84-103)

The route pipes the PDF source stream into two `PassThrough` sinks
(`clientStream` and `cacheStream`) and, on a source error, destroys both with
the error.  A sink is modelled by the bytes it has observed plus its terminal
flags; source behaviour is a list of events. -/

/-- State of one tee sink (`PassThrough`). -/
structure SinkState where
  bytes : List Nat
  errored : Bool
  ended : Bool
deriving DecidableEq

/-- State of the tee: the client sink and the cache sink. -/
structure TeeState where
  client : SinkState
  cache : SinkState
deriving DecidableEq

/-- Events emitted by the PDF source stream, in event-loop order. -/
inductive SrcEv where
  | data (chunk : List Nat)
  | eof
  | fail (msg : String)
deriving DecidableEq

/-- A write forwarded by `pipe`: dropped once the sink is terminal. -/
def sinkWrite (s : SinkState) (chunk : List Nat) : SinkState :=
  if s.errored || s.ended then s else { s with bytes := s.bytes ++ chunk }

/-- `pipe` ends the destination when the source ends. -/
def sinkEnd (s : SinkState) : SinkState :=
  if s.errored then s else { s with ended := true }

/-- `stream.destroy(err)` (route.ts lines 101-102): the sink becomes errored. -/
def sinkDestroy (s : SinkState) : SinkState :=
  { s with errored := true }

/-- One source event acting on both sinks: data is forwarded to both
(route.ts lines 89-90), end ends both, an error destroys both
(route.ts lines 98-103). -/
def teeStep (t : TeeState) (e : SrcEv) : TeeState :=
  match e with
  | .data c => ⟨sinkWrite t.client c, sinkWrite t.cache c⟩
  | .eof => ⟨sinkEnd t.client, sinkEnd t.cache⟩
  | .fail _ => ⟨sinkDestroy t.client, sinkDestroy t.cache⟩

/-- A fresh `PassThrough` sink. -/
def initSink : SinkState := ⟨[], false, false⟩

/-- Run the tee over a full source event trace. -/
def runTee (evs : List SrcEv) : TeeState :=
  evs.foldl teeStep ⟨initSink, initSink⟩

/-! ### Settlement detector (`src/src/services/BrowserlessPdfGenerator.ts`
lines 16-101, `waitForNetworkIdle`)

The promise executor tracks pending image request URLs in a `Set`; the
`request` listener adds image URLs, `requestfinished`/`requestfailed` remove
them and schedule a debounced `checkIdle` 100 ms later; `checkIdle` resolves
when the set is empty; the timeout resolves unconditionally.  `reject` is bound
by the executor but never invoked.  A promise settles at most once: later
`resolve` calls are no-ops. -/

/-- How the `waitForNetworkIdle` promise can settle.  `rejected` is in the type
because the executor binds a `reject` continuation; the theorems show it is
never used. -/
inductive PromiseOutcome where
  | resolved
  | rejected
deriving DecidableEq

/-- State of the detector: the pending image URL set and the settled outcome
(`none` while the promise is still pending). -/
structure DetState where
  pending : List String
  result : Option PromiseOutcome
deriving DecidableEq

/-- `Set.add`: de-duplicating insert. -/
def addPending (pending : List String) (url : String) : List String :=
  if url ∈ pending then pending else url :: pending

/-- A promise settles only once; later settlement attempts are no-ops. -/
def settle (s : DetState) (o : PromiseOutcome) : DetState :=
  match s.result with
  | some _ => s
  | none => { s with result := some o }

/-- Occurrences processed by the detector, in event-loop order: the three page
listeners firing, a debounced `checkIdle` invocation (the 100 ms `setTimeout`
callbacks at lines 56-60 and 80), and the hard timeout firing (lines 25-29). -/
inductive DetOcc where
  | request (url : String) (isImage : Bool)
  | finished (url : String)
  | failed (url : String)
  | debounceCheck
  | timeoutFire
deriving DecidableEq

/-- One occurrence acting on the detector state, as the listeners do
(BrowserlessPdfGenerator.ts lines 31-80). -/
def detStep (s : DetState) (o : DetOcc) : DetState :=
  match o with
  | .request url isImage =>
      if isImage then { s with pending := addPending s.pending url } else s
  | .finished url => { s with pending := s.pending.erase url }
  | .failed url => { s with pending := s.pending.erase url }
  | .debounceCheck => if s.pending.isEmpty then settle s .resolved else s
  | .timeoutFire => settle s .resolved

/-- Initial detector state: empty pending set, promise unsettled. -/
def detInit : DetState := ⟨[], none⟩

/-- Run the detector over a trace of occurrences. -/
def runDet (occs : List DetOcc) : DetState :=
  occs.foldl detStep detInit

/-- The instant the promise settles: the time stamp of the first occurrence in
a timed trace whose processing settles the promise, starting from state `s`. -/
def resolveTime (tr : List (Nat × DetOcc)) (s : DetState) : Option Nat :=
  match tr with
  | [] => none
  | (t, o) :: rest =>
      let s2 := detStep s o
      if s.result.isNone && s2.result.isSome then some t
      else resolveTime rest s2

/-- The debounce window of the detector: the 100 ms `setTimeout` re-check delay
(BrowserlessPdfGenerator.ts line 60). -/
def DEBOUNCE_MS : Nat := 100

/-! ### Render session cleanup (`src/src/services/BrowserlessPdfGenerator.ts`
lines 118-143, the `cleanup` closure of `generate`)

`cleanup` removes the page listeners and, when the captured `browser` handle is
non-null, nulls it *before* awaiting `browserToClose.close()`, so a second
invocation finds `browser === null` and closes nothing. -/

/-- The mutable closure state captured by `cleanup`: the `browser` handle (an
opaque connection identifier) and the page's attached listener events. -/
structure GenState where
  browser : Option Nat
  pageListeners : List String
deriving DecidableEq

/-- `cleanup`: returns the new closure state and the handle it closed
(`none` when `browser` was already null). -/
def cleanup (s : GenState) : GenState × Option Nat :=
  match s.browser with
  | some b => (⟨none, []⟩, some b)
  | none => (⟨none, []⟩, none)

/-! ### The orchestrator's cache-miss path (`route.ts` lines 56-160)

The actions of one request on the cache-miss path, in the order the event loop
performs them.  `openSession` is the call into `pdfGenerator.generate`;
`cleanupCall` is one invocation of the session's cleanup; `respond s` is the
dispatch of the `NextResponse` with status `s`; the settled events are the
resolutions of `clientStreamPromise` / `cacheStreamPromise`;
`logCacheOutcome` is the logging-only continuation at route.ts lines 106-108. -/

inductive RouteAct where
  | openSession
  | cleanupCall
  | respond (status : Nat)
  | clientSettled (ok : Bool)
  | cacheSettled (ok : Bool)
  | logCacheOutcome (ok : Bool)
deriving DecidableEq

/-- Environment resolving the nondeterminism of one cache-miss request:
whether `generate` succeeds, whether a synchronous failure occurs between a
successful `generate` and the response dispatch, whether the source stream
completes cleanly, and the outcome of the background cache write. -/
structure MissEnv where
  genOk : Bool
  postFail : Option String
  sourceOk : Bool
  cacheOk : Bool

/-- The action trace of a cache-miss request, mirroring the route and the
generator:
* `generate` fails → its own catch runs `cleanup` once and re-throws
  (BrowserlessPdfGenerator.ts lines 199-211); `pdfCleanup` is still null, so
  the route's catch only builds the 500 response (route.ts lines 145-157).
* `generate` succeeds but a synchronous failure hits before the response is
  returned → the route's catch awaits the stored `pdfCleanup` once and responds
  500 (route.ts lines 148-156); the background cache write settles later and is
  only logged.
* Otherwise the response is returned synchronously (route.ts line 143) before
  either sink's promise can settle; `Promise.allSettled(…).finally` then runs
  `pdfCleanup` exactly once after both sinks settled (route.ts lines 125-141). -/
def missTrace (env : MissEnv) : List RouteAct :=
  if ¬ env.genOk then
    [.openSession, .cleanupCall, .respond 500]
  else
    match env.postFail with
    | some _ =>
        [.openSession, .cleanupCall, .respond 500,
         .cacheSettled (env.sourceOk && env.cacheOk),
         .logCacheOutcome (env.sourceOk && env.cacheOk)]
    | none =>
        [.openSession, .respond 200,
         .clientSettled env.sourceOk,
         .cacheSettled (env.sourceOk && env.cacheOk),
         .logCacheOutcome (env.sourceOk && env.cacheOk),
         .cleanupCall]

/-- Count the cleanup invocations in a trace. -/
def cleanupCount (tr : List RouteAct) : Nat :=
  tr.countP fun a => match a with
    | .cleanupCall => true
    | _ => false

/-- The status of the response dispatched in a trace (the first `respond`). -/
def responseStatus (tr : List RouteAct) : Option Nat :=
  match tr with
  | [] => none
  | .respond s :: _ => some s
  | _ :: rest => responseStatus rest

/-- Index of the first `respond` action. -/
def respondIdx (tr : List RouteAct) : Nat :=
  tr.findIdx fun a => match a with
    | .respond _ => true
    | _ => false

/-- Index of the first `cacheSettled` action. -/
def cacheSettledIdx (tr : List RouteAct) : Nat :=
  tr.findIdx fun a => match a with
    | .cacheSettled _ => true
    | _ => false

/-! ### Page observer state for `waitForNetworkIdle` (C8)

`page.on(ev, h)` appends a listener, `page.off(ev, h)` removes one occurrence
of it, `setRequestInterception` toggles a flag. -/

/-- Observer state of a puppeteer page: the interception flag and the attached
(event, handler) pairs in attachment order. -/
structure PageState where
  interception : Bool
  listeners : List (String × Nat)
deriving DecidableEq

/-- `page.on`: append a listener. -/
def pageOn (p : PageState) (ev : String) (h : Nat) : PageState :=
  { p with listeners := p.listeners ++ [(ev, h)] }

/-- Remove the first occurrence of a listener (as `emitter.off` does). -/
def removeListener : List (String × Nat) → String × Nat → List (String × Nat)
  | [], _ => []
  | x :: xs, y => if x = y then xs else x :: removeListener xs y

/-- `page.off`: remove one occurrence of the listener. -/
def pageOff (p : PageState) (ev : String) (h : Nat) : PageState :=
  { p with listeners := removeListener p.listeners (ev, h) }

/-- How the `await waitPromise` inside `waitForNetworkIdle` exits. -/
inductive WaitExit where
  | idle
  | timeout
  | exc (msg : String)

/-- The effect of one `waitForNetworkIdle` call on the page's observer state
(BrowserlessPdfGenerator.ts lines 74-100): attach the three listeners (executor
body, lines 75-77), enable interception (line 86), wait — exiting by idle,
timeout, or an exception — and then, in `finally` on every exit path, detach
the three listeners (lines 90-92) and disable interception (line 95). -/
def waitForNetworkIdlePage (p : PageState) (h1 h2 h3 : Nat) (ex : WaitExit) :
    PageState :=
  let attached := pageOn (pageOn (pageOn p "request" h1) "requestfinished" h2)
      "requestfailed" h3
  let intercepting := { attached with interception := true }
  let afterWait :=
    match ex with
    | .idle => intercepting
    | .timeout => intercepting
    | .exc _ => intercepting
  let detached := pageOff (pageOff (pageOff afterWait "request" h1)
      "requestfinished" h2) "requestfailed" h3
  { detached with interception := false }

/-! ## Claim theorems -/

/-- The empty cache state: no index entries, no files. -/
def emptyCacheState : CacheState :=
  ⟨fun _ => none, fun _ => none, fun _ => none⟩

/-- Claim C1: for every call to `set(key, sourceStream, ttl)`, the Redis index
entry is written (with its expiry) if and only if the blob write completed
fully; if the stream pipeline fails, the partially written blob file is
deleted, the index is not written (it is left exactly as it was), and the
original pipeline error is propagated to the caller. -/
theorem set_index_iff_blob_complete (cacheDir key : String) (src : StreamData)
    (ttlSeconds now : Nat) (st : CacheState) :
    (∀ bytes, src = .ok bytes →
        (RedisFsCacheProvider.set cacheDir key src ttlSeconds now st).2 =
            Except.ok () ∧
        (RedisFsCacheProvider.set cacheDir key src ttlSeconds now st).1.redis
            (getCacheKey key) = some (generateCacheFilePath cacheDir key now) ∧
        (RedisFsCacheProvider.set cacheDir key src ttlSeconds now st).1.ttl
            (getCacheKey key) = some ttlSeconds ∧
        (RedisFsCacheProvider.set cacheDir key src ttlSeconds now st).1.fs
            (generateCacheFilePath cacheDir key now) = some bytes) ∧
    (∀ partBytes msg, src = .err partBytes msg →
        (RedisFsCacheProvider.set cacheDir key src ttlSeconds now st).2 =
            Except.error msg ∧
        (RedisFsCacheProvider.set cacheDir key src ttlSeconds now st).1.redis =
            st.redis ∧
        (RedisFsCacheProvider.set cacheDir key src ttlSeconds now st).1.ttl =
            st.ttl ∧
        (RedisFsCacheProvider.set cacheDir key src ttlSeconds now st).1.fs
            (generateCacheFilePath cacheDir key now) = none) := by
  constructor
  · intro bytes hsrc
    subst hsrc
    refine ⟨rfl, ?_, ?_, ?_⟩ <;> simp [RedisFsCacheProvider.set, updateMap]
  · intro partBytes msg hsrc
    subst hsrc
    refine ⟨rfl, rfl, rfl, ?_⟩
    simp [RedisFsCacheProvider.set, updateMap]

/-- Witness for C1: a successful write installs the index entry pointing at the
generated path, and a failed write propagates the error with the index
untouched. -/
theorem set_index_iff_blob_complete_witness :
    ((RedisFsCacheProvider.set ".pdfcache" "k" (.ok [1, 2]) 60 5
        emptyCacheState).2 = Except.ok () ∧
      (RedisFsCacheProvider.set ".pdfcache" "k" (.ok [1, 2]) 60 5
        emptyCacheState).1.redis (getCacheKey "k") =
          some (generateCacheFilePath ".pdfcache" "k" 5)) ∧
    ((RedisFsCacheProvider.set ".pdfcache" "k" (.err [1] "boom") 60 5
        emptyCacheState).2 = Except.error "boom" ∧
      (RedisFsCacheProvider.set ".pdfcache" "k" (.err [1] "boom") 60 5
        emptyCacheState).1.redis = emptyCacheState.redis) := by
  constructor
  · have h := (set_index_iff_blob_complete ".pdfcache" "k" (.ok [1, 2]) 60 5
      emptyCacheState).1 [1, 2] rfl
    exact ⟨h.1, h.2.1⟩
  · have h := (set_index_iff_blob_complete ".pdfcache" "k" (.err [1] "boom") 60 5
      emptyCacheState).2 [1] "boom" rfl
    exact ⟨h.1, h.2.1⟩

/-- Claim C2: `get` returns a non-miss result only if an index entry exists and
the referenced blob exists; if the index entry exists but the blob is absent,
`get` deletes the stale index entry and returns a miss without raising (the
model is total precisely because the source catches the only fallible check of
this case), and re-running `get` afterwards is a no-op returning miss again. -/
theorem get_self_heals_stale_index (key : String) (st : CacheState) :
    (∀ bytes, (RedisFsCacheProvider.get key st).2 = some bytes →
        ∃ p, st.redis (getCacheKey key) = some p ∧ st.fs p = some bytes ∧
          (RedisFsCacheProvider.get key st).1 = st) ∧
    (∀ p, st.redis (getCacheKey key) = some p → st.fs p = none →
        (RedisFsCacheProvider.get key st).2 = none ∧
        (RedisFsCacheProvider.get key st).1.redis (getCacheKey key) = none ∧
        (∀ k, k ≠ getCacheKey key →
          (RedisFsCacheProvider.get key st).1.redis k = st.redis k) ∧
        (RedisFsCacheProvider.get key st).1.fs = st.fs ∧
        RedisFsCacheProvider.get key (RedisFsCacheProvider.get key st).1 =
          ((RedisFsCacheProvider.get key st).1, none)) := by
  constructor
  · intro bytes hb
    cases hr : st.redis (getCacheKey key) with
    | none => simp [RedisFsCacheProvider.get, hr] at hb
    | some p =>
      cases hf : st.fs p with
      | none => simp [RedisFsCacheProvider.get, hr, hf] at hb
      | some bs =>
        simp only [RedisFsCacheProvider.get, hr, hf, Option.some.injEq] at hb
        subst hb
        exact ⟨p, rfl, hf, by simp [RedisFsCacheProvider.get, hr, hf]⟩
  · intro p hr hf
    refine ⟨?_, ?_, ?_, ?_, ?_⟩
    · simp [RedisFsCacheProvider.get, hr, hf]
    · simp [RedisFsCacheProvider.get, hr, hf, updateMap]
    · intro k hk
      simp [RedisFsCacheProvider.get, hr, hf, updateMap, hk]
    · simp [RedisFsCacheProvider.get, hr, hf]
    · simp [RedisFsCacheProvider.get, hr, hf, updateMap]

/-- Witness for C2: with an index entry pointing at a missing blob, `get`
misses, removes the entry, and a second `get` is a no-op miss. -/
theorem get_self_heals_stale_index_witness :
    (RedisFsCacheProvider.get "k"
        ⟨fun x => if x = getCacheKey "k" then some "p" else none,
         fun _ => none, fun _ => none⟩).2 = none ∧
    (RedisFsCacheProvider.get "k"
        ⟨fun x => if x = getCacheKey "k" then some "p" else none,
         fun _ => none, fun _ => none⟩).1.redis (getCacheKey "k") = none := by
  have h := (get_self_heals_stale_index "k"
      ⟨fun x => if x = getCacheKey "k" then some "p" else none,
       fun _ => none, fun _ => none⟩).2 "p" (by simp) rfl
  exact ⟨h.1, h.2.1⟩

/-- Claim C10: when `REDIS_URL` is unset the exported client is a mock whose
`get` always returns null and whose `set` is a no-op returning null, so with
the mock as index `RedisFsCacheProvider.get` returns a miss for every key —
regardless of what blob files exist — without raising, leaving the state
untouched; every request therefore takes the render path. -/
theorem mock_redis_disables_caching :
    (∀ k, mockRedis.get k = none) ∧
    (∀ k v m d, mockRedis.set k v m d = none) ∧
    (∀ (key : String) (ttlf : String → Option Nat)
        (fsf : String → Option (List Nat)),
        RedisFsCacheProvider.get key ⟨mockRedis.get, ttlf, fsf⟩ =
          (⟨mockRedis.get, ttlf, fsf⟩, none)) :=
  ⟨fun _ => rfl, fun _ _ _ _ => rfl, fun _ _ _ => rfl⟩

theorem isSafeChar_ne_slash {c : Char} (h : isSafeChar c = true) : c ≠ '/' := by
  intro he
  subst he
  exact absurd h (by decide)

theorem sanitizeChar_safe (c : Char) : isSafeChar (sanitizeChar c) = true := by
  by_cases h : isSafeChar c = true
  · rw [sanitizeChar, if_pos h]
    exact h
  · rw [sanitizeChar, if_neg h]
    decide

theorem sanitizeKey_data (key : String) :
    (sanitizeKey key).data = (key.data.map sanitizeChar).take 200 :=
  List.toList_asString _

theorem mem_sanitizeKey_safe {key : String} {c : Char}
    (hc : c ∈ (sanitizeKey key).data) : isSafeChar c = true := by
  rw [sanitizeKey_data] at hc
  obtain ⟨a, _, ha⟩ := List.mem_map.mp (List.mem_of_mem_take hc)
  rw [← ha]
  exact sanitizeChar_safe a

theorem isDigit_safe {c : Char} (h : c.isDigit = true) : isSafeChar c = true := by
  simp only [Char.isDigit, Bool.and_eq_true, decide_eq_true_eq] at h
  simp only [isSafeChar, Bool.or_eq_true, Bool.and_eq_true, decide_eq_true_eq]
  tauto

/-- Claim C9: for every key — including keys with path separators, `..`
segments, or characters outside `[a-zA-Z0-9_-]` — the blob path has the form
`cacheDir/<sanitized-key-of-at-most-200-chars>_<timestamp>.pdf`, the sanitized
part consists only of filename-safe characters, and the whole file-name
component after `cacheDir/` contains no separator, so no key can make the
write escape the cache directory. -/
theorem cache_path_confined (cacheDir key : String) (now : Nat) :
    ∃ s, generateCacheFilePath cacheDir key now =
        cacheDir ++ "/" ++ s ++ "_" ++ Nat.repr now ++ ".pdf" ∧
      s = sanitizeKey key ∧
      s.length ≤ 200 ∧
      (∀ c ∈ s.data, isSafeChar c = true) ∧
      (∀ c ∈ (s ++ "_" ++ Nat.repr now ++ ".pdf").data, c ≠ '/') := by
  refine ⟨sanitizeKey key, rfl, rfl, ?_, ?_, ?_⟩
  · show (sanitizeKey key).length ≤ 200
    rw [sanitizeKey, List.length_asString, List.length_take]
    omega
  · intro c hc
    exact mem_sanitizeKey_safe hc
  · intro c hc
    simp only [String.data_append, List.mem_append] at hc
    rcases hc with ((hc | hc) | hc) | hc
    · exact isSafeChar_ne_slash (mem_sanitizeKey_safe hc)
    · fin_cases hc
      decide
    · rw [repr_data] at hc
      exact fun he => absurd (mem_digitsOf_isDigit now hc) (by subst he; decide)
    · fin_cases hc <;> decide

theorem append_mid_inj {α : Type} (P Q : List α) {a b : List α}
    (h : P ++ (a ++ Q) = P ++ (b ++ Q)) : a = b :=
  List.append_cancel_right (List.append_cancel_left h)

/-- Claim C7, counterexample: the disambiguating suffix is `Date.now()`, so two
concurrent `set()` calls for the same key that read the same millisecond clock
value are allocated the *same* blob file path — the claimed distinctness fails.
The second conjunct evaluates the collision concretely. -/
theorem concurrent_set_paths_not_always_distinct :
    (¬ ∀ (t₁ t₂ : Nat),
        generateCacheFilePath ".pdfcache" "key" t₁ ≠
          generateCacheFilePath ".pdfcache" "key" t₂) ∧
    generateCacheFilePath ".pdfcache" "key" 1700000000000 =
      ".pdfcache/key_1700000000000.pdf" := by
  constructor
  · intro h
    exact h 1700000000000 1700000000000 rfl
  · rfl

/-- Claim C7, amended: two `set()` calls for the same key are allocated
distinct blob file paths whenever they observe distinct `Date.now()` readings;
in the same millisecond the allocated paths coincide (see the counterexample),
and the index reflects whichever `set()` completes last. -/
theorem concurrent_set_paths_distinct_of_ne_now (cacheDir key : String)
    {t₁ t₂ : Nat} (h : t₁ ≠ t₂) :
    generateCacheFilePath cacheDir key t₁ ≠ generateCacheFilePath cacheDir key t₂ := by
  intro heq
  apply h
  apply digitsOf_injective
  have hd := congrArg String.data heq
  simp only [generateCacheFilePath, String.data_append, List.append_assoc,
    repr_data] at hd
  exact append_mid_inj _ _
    (List.append_cancel_left (List.append_cancel_left
      (List.append_cancel_left hd)))

/-- Witness for the amended C7: timestamps 1 and 2 give distinct paths. -/
theorem concurrent_set_paths_distinct_of_ne_now_witness :
    (1 : Nat) ≠ 2 ∧
    generateCacheFilePath ".pdfcache" "key" 1 ≠
      generateCacheFilePath ".pdfcache" "key" 2 :=
  ⟨by decide, concurrent_set_paths_distinct_of_ne_now ".pdfcache" "key" (by decide)⟩

theorem foldl_teeStep_components_eq (evs : List SrcEv) (t : TeeState)
    (h : t.client = t.cache) :
    (evs.foldl teeStep t).client = (evs.foldl teeStep t).cache := by
  induction evs generalizing t with
  | nil => exact h
  | cons e evs ih =>
    rw [List.foldl_cons]
    apply ih
    cases e <;> simp [teeStep, h]

theorem foldl_teeStep_data (chunks : List (List Nat)) (b : List Nat) :
    (chunks.map SrcEv.data).foldl teeStep
        ⟨⟨b, false, false⟩, ⟨b, false, false⟩⟩ =
      ⟨⟨b ++ chunks.flatten, false, false⟩, ⟨b ++ chunks.flatten, false, false⟩⟩ := by
  induction chunks generalizing b with
  | nil => simp
  | cons c cs ih =>
    rw [List.map_cons, List.foldl_cons]
    have hstep : teeStep ⟨⟨b, false, false⟩, ⟨b, false, false⟩⟩ (SrcEv.data c) =
        ⟨⟨b ++ c, false, false⟩, ⟨b ++ c, false, false⟩⟩ := rfl
    rw [hstep, ih (b ++ c)]
    simp

theorem foldl_teeStep_errored_fix (evs : List SrcEv) (s₁ s₂ : SinkState)
    (h₁ : s₁.errored = true) (h₂ : s₂.errored = true) :
    evs.foldl teeStep ⟨s₁, s₂⟩ = ⟨s₁, s₂⟩ := by
  obtain ⟨b₁, e₁, n₁⟩ := s₁
  obtain ⟨b₂, e₂, n₂⟩ := s₂
  replace h₁ : e₁ = true := h₁
  replace h₂ : e₂ = true := h₂
  subst h₁
  subst h₂
  induction evs with
  | nil => rfl
  | cons e evs ih =>
    rw [List.foldl_cons]
    have hstep : teeStep ⟨⟨b₁, true, n₁⟩, ⟨b₂, true, n₂⟩⟩ e =
        ⟨⟨b₁, true, n₁⟩, ⟨b₂, true, n₂⟩⟩ := by
      cases e <;> simp [teeStep, sinkWrite, sinkEnd, sinkDestroy]
    rw [hstep]
    exact ih

/-- Claim C4: the tee forwards every byte to both sinks in source order: on a
clean source of `N` bytes both sinks observe exactly those `N` bytes and end;
on a source error after `k` bytes both sinks are put into the errored state
having observed exactly the same `k` bytes, and no later event can add bytes —
so for *every* source trace the two sinks observe identical data, neither ever
seeing more than the other. -/
theorem tee_fidelity :
    (∀ evs : List SrcEv, (runTee evs).client = (runTee evs).cache) ∧
    (∀ chunks : List (List Nat),
        runTee (chunks.map SrcEv.data ++ [SrcEv.eof]) =
          ⟨⟨chunks.flatten, false, true⟩, ⟨chunks.flatten, false, true⟩⟩) ∧
    (∀ (chunks : List (List Nat)) (msg : String) (post : List SrcEv),
        runTee (chunks.map SrcEv.data ++ SrcEv.fail msg :: post) =
          ⟨⟨chunks.flatten, true, false⟩, ⟨chunks.flatten, true, false⟩⟩) := by
  refine ⟨?_, ?_, ?_⟩
  · intro evs
    exact foldl_teeStep_components_eq evs ⟨initSink, initSink⟩ rfl
  · intro chunks
    rw [runTee, List.foldl_append]
    have h0 : (chunks.map SrcEv.data).foldl teeStep ⟨initSink, initSink⟩ =
        ⟨⟨chunks.flatten, false, false⟩, ⟨chunks.flatten, false, false⟩⟩ := by
      have := foldl_teeStep_data chunks []
      simpa [initSink] using this
    rw [h0]
    rfl
  · intro chunks msg post
    rw [runTee, List.foldl_append]
    have h0 : (chunks.map SrcEv.data).foldl teeStep ⟨initSink, initSink⟩ =
        ⟨⟨chunks.flatten, false, false⟩, ⟨chunks.flatten, false, false⟩⟩ := by
      have := foldl_teeStep_data chunks []
      simpa [initSink] using this
    rw [h0, List.foldl_cons]
    have hstep : teeStep ⟨⟨chunks.flatten, false, false⟩, ⟨chunks.flatten, false, false⟩⟩
        (SrcEv.fail msg) =
        ⟨⟨chunks.flatten, true, false⟩, ⟨chunks.flatten, true, false⟩⟩ := rfl
    rw [hstep]
    exact foldl_teeStep_errored_fix post _ _ rfl rfl

theorem detStep_result_some {s : DetState} {o : PromiseOutcome}
    (h : s.result = some o) (occ : DetOcc) : (detStep s occ).result = some o := by
  cases occ with
  | request url isImage =>
    simp only [detStep]
    split <;> exact h
  | finished url => exact h
  | failed url => exact h
  | debounceCheck =>
    simp only [detStep]
    split
    · simp [settle, h]
    · exact h
  | timeoutFire => simp [detStep, settle, h]

theorem foldl_detStep_result_some (occs : List DetOcc) (s : DetState)
    {o : PromiseOutcome} (h : s.result = some o) :
    (occs.foldl detStep s).result = some o := by
  induction occs generalizing s with
  | nil => exact h
  | cons occ occs ih =>
    rw [List.foldl_cons]
    exact ih _ (detStep_result_some h occ)

theorem detStep_not_rejected {s : DetState}
    (h : s.result ≠ some PromiseOutcome.rejected) (occ : DetOcc) :
    (detStep s occ).result ≠ some PromiseOutcome.rejected := by
  cases occ with
  | request url isImage =>
    simp only [detStep]
    split <;> exact h
  | finished url => exact h
  | failed url => exact h
  | debounceCheck =>
    simp only [detStep]
    split
    · cases hr : s.result with
      | none => simp [settle, hr]
      | some o => simpa [settle, hr] using h
    · exact h
  | timeoutFire =>
    cases hr : s.result with
    | none => simp [detStep, settle, hr]
    | some o => simpa [detStep, settle, hr] using h

theorem foldl_detStep_not_rejected (occs : List DetOcc) (s : DetState)
    (h : s.result ≠ some PromiseOutcome.rejected) :
    (occs.foldl detStep s).result ≠ some PromiseOutcome.rejected := by
  induction occs generalizing s with
  | nil => exact h
  | cons occ occs ih =>
    rw [List.foldl_cons]
    exact ih _ (detStep_not_rejected h occ)

theorem detStep_timeoutFire_resolves {s : DetState}
    (h : s.result ≠ some PromiseOutcome.rejected) :
    (detStep s DetOcc.timeoutFire).result = some PromiseOutcome.resolved := by
  cases hr : s.result with
  | none => simp [detStep, settle, hr]
  | some o =>
    cases o with
    | resolved => simp [detStep, settle, hr]
    | rejected => exact absurd hr h

theorem resolveTime_le (tr : List (Nat × DetOcc)) (T : Nat) (s : DetState)
    (hs : s.result = none)
    (hsort : List.Pairwise (fun a b : Nat × DetOcc => a.1 ≤ b.1) tr)
    (hmem : (T, DetOcc.timeoutFire) ∈ tr) :
    ∃ t, resolveTime tr s = some t ∧ t ≤ T := by
  induction tr generalizing s with
  | nil => cases hmem
  | cons hd rest ih =>
    obtain ⟨t₀, o₀⟩ := hd
    by_cases h2 : (detStep s o₀).result.isSome = true
    · have hcond : (s.result.isNone && (detStep s o₀).result.isSome) = true := by
        simp [hs, h2]
      refine ⟨t₀, by simp [resolveTime, hcond], ?_⟩
      rcases List.mem_cons.mp hmem with heq | hmem'
      · have : T = t₀ := congrArg Prod.fst heq
        omega
      · exact (List.pairwise_cons.mp hsort).1 _ hmem'
    · have hres : (detStep s o₀).result = none := by
        cases hx : (detStep s o₀).result
        · rfl
        · simp [hx] at h2
      have hmem' : (T, DetOcc.timeoutFire) ∈ rest := by
        rcases List.mem_cons.mp hmem with heq | hmem'
        · exfalso
          have ho : o₀ = DetOcc.timeoutFire := (congrArg Prod.snd heq).symm
          rw [ho, detStep_timeoutFire_resolves (by simp [hs])] at h2
          exact h2 rfl
        · exact hmem'
      have hcond : (s.result.isNone && (detStep s o₀).result.isSome) = false := by
        simp [hres]
      obtain ⟨t, ht, hle⟩ := ih (detStep s o₀) hres
        (List.pairwise_cons.mp hsort).2 hmem'
      exact ⟨t, by simp [resolveTime, hcond, ht], hle⟩

/-- Claim C5: for every page-event trace, the `waitForNetworkIdle` promise is
never rejected; whenever a debounced idle check observes the pending image set
empty the promise is (and stays) resolved; the timeout firing resolves it
unconditionally — a timeout is a degraded success; and on any time-ordered
trace containing the timeout firing at time `T` the promise settles at some
time `t ≤ T + DEBOUNCE_MS`, i.e. within the timeout plus the debounce window. -/
theorem settlement_always_resolves :
    (∀ occs : List DetOcc, (runDet occs).result ≠ some PromiseOutcome.rejected) ∧
    (∀ pre post : List DetOcc, (runDet pre).pending = [] →
        (runDet (pre ++ DetOcc.debounceCheck :: post)).result =
          some PromiseOutcome.resolved) ∧
    (∀ pre post : List DetOcc,
        (runDet (pre ++ DetOcc.timeoutFire :: post)).result =
          some PromiseOutcome.resolved) ∧
    (∀ (tr : List (Nat × DetOcc)) (T : Nat),
        List.Pairwise (fun a b : Nat × DetOcc => a.1 ≤ b.1) tr →
        (T, DetOcc.timeoutFire) ∈ tr →
        ∃ t, resolveTime tr detInit = some t ∧ t ≤ T + DEBOUNCE_MS) := by
  have hnr : ∀ occs : List DetOcc,
      (runDet occs).result ≠ some PromiseOutcome.rejected := by
    intro occs
    exact foldl_detStep_not_rejected occs detInit (by simp [detInit])
  refine ⟨hnr, ?_, ?_, ?_⟩
  · intro pre post hpend
    rw [runDet, List.foldl_append, List.foldl_cons]
    have hstep : (detStep (runDet pre) DetOcc.debounceCheck).result =
        some PromiseOutcome.resolved := by
      have hempty : (runDet pre).pending.isEmpty = true := by
        simp [hpend]
      simp only [detStep, hempty, if_true]
      cases hr : (runDet pre).result with
      | none => simp [settle, hr]
      | some o =>
        cases o with
        | resolved => simp [settle, hr]
        | rejected => exact absurd hr (hnr pre)
    exact foldl_detStep_result_some post _ hstep
  · intro pre post
    rw [runDet, List.foldl_append, List.foldl_cons]
    exact foldl_detStep_result_some post _
      (detStep_timeoutFire_resolves (hnr pre))
  · intro tr T hsort hmem
    obtain ⟨t, ht, hle⟩ := resolveTime_le tr T detInit rfl hsort hmem
    exact ⟨t, ht, by omega⟩

/-- Witness for C5: the empty-pending debounce check resolves the promise, and
on a concrete trace whose timeout fires at 30000 ms the promise settles no
later than 30000 + 100 ms. -/
theorem settlement_always_resolves_witness :
    ((runDet ([] : List DetOcc)).pending = [] ∧
      (runDet (([] : List DetOcc) ++ DetOcc.debounceCheck :: [])).result =
        some PromiseOutcome.resolved) ∧
    (∃ t, resolveTime
        [(0, DetOcc.request "u" true), (30000, DetOcc.timeoutFire)] detInit =
          some t ∧ t ≤ 30000 + DEBOUNCE_MS) := by
  constructor
  · exact ⟨rfl, settlement_always_resolves.2.1 [] [] rfl⟩
  · exact settlement_always_resolves.2.2.2 _ 30000 (by decide) (by decide)

/-- Claim C3: on the cache-miss path the session's cleanup is invoked exactly
once on every exit path — generate-failure (cleanup runs inside `generate`'s
catch), post-generate synchronous failure (the route's catch awaits the stored
`pdfCleanup`), and success or mid-stream failure (the `Promise.allSettled`
`finally` runs it after both sinks settle) — and cleanup is idempotent: the
browser handle is nulled before the first close, so a second invocation closes
nothing. -/
theorem session_release_exactly_once :
    (∀ env : MissEnv, cleanupCount (missTrace env) = 1) ∧
    (∀ s : GenState, (cleanup (cleanup s).1).2 = none) ∧
    (∀ (s : GenState) (b : Nat), s.browser = some b →
        (cleanup s).1.browser = none ∧ (cleanup s).2 = some b) := by
  refine ⟨?_, ?_, ?_⟩
  · intro env
    obtain ⟨g, pf, so, co⟩ := env
    cases g <;> cases pf <;> rfl
  · intro s
    obtain ⟨br, l⟩ := s
    cases br <;> rfl
  · intro s b hb
    obtain ⟨br, l⟩ := s
    replace hb : br = some b := hb
    subst hb
    exact ⟨rfl, rfl⟩

/-- Witness for C3: cleaning up a session holding browser handle 7 nulls the
handle and closes it; the exactly-once count and double-cleanup conjuncts are
hypothesis-free. -/
theorem session_release_exactly_once_witness :
    (cleanup ⟨some 7, ["request"]⟩).1.browser = none ∧
    (cleanup ⟨some 7, ["request"]⟩).2 = some 7 :=
  session_release_exactly_once.2.2 ⟨some 7, ["request"]⟩ 7 rfl

/-- Claim C6: on a cache miss with no pre-response failure, the caller-facing
response (status 200) is dispatched strictly before the cache sink settles,
and the background cache write's outcome is only logged: for every cache
outcome the dispatched response status is the same 200. -/
theorem response_dispatched_before_cache_outcome (env : MissEnv)
    (hg : env.genOk = true) (hp : env.postFail = none) :
    respondIdx (missTrace env) < cacheSettledIdx (missTrace env) ∧
    responseStatus (missTrace env) = some 200 ∧
    (∀ b : Bool,
        responseStatus (missTrace { env with cacheOk := b }) = some 200) := by
  obtain ⟨g, pf, so, co⟩ := env
  replace hg : g = true := hg
  replace hp : pf = none := hp
  subst hg
  subst hp
  refine ⟨?_, ?_, ?_⟩
  · cases so <;> cases co <;> decide
  · cases so <;> cases co <;> decide
  · intro b
    cases so <;> cases b <;> rfl

/-- Witness for C6: the concrete success environment dispatches 200 before the
cache sink settles, for either cache outcome. -/
theorem response_dispatched_before_cache_outcome_witness :
    respondIdx (missTrace ⟨true, none, true, true⟩) <
      cacheSettledIdx (missTrace ⟨true, none, true, true⟩) ∧
    responseStatus (missTrace ⟨true, none, true, true⟩) = some 200 ∧
    (∀ b : Bool,
        responseStatus
          (missTrace { (⟨true, none, true, true⟩ : MissEnv) with cacheOk := b }) =
            some 200) :=
  response_dispatched_before_cache_outcome ⟨true, none, true, true⟩ rfl rfl

theorem removeListener_append_of_notMem {l : List (String × Nat)}
    {a : String × Nat} (h : a ∉ l) (rest : List (String × Nat)) :
    removeListener (l ++ a :: rest) a = l ++ rest := by
  induction l with
  | nil => simp [removeListener]
  | cons x xs ih =>
    rw [List.cons_append, removeListener]
    have hxa : ¬ x = a := fun he => h (he ▸ List.mem_cons_self x xs)
    rw [if_neg hxa, List.cons_append,
      ih (fun hm => h (List.mem_cons_of_mem _ hm))]

/-- Claim C8: on every exit of `waitForNetworkIdle` — idle detected, timeout,
or an exception while waiting — the `finally` block detaches the three request
listeners it attached and disables request interception before returning, so
the page's observer state is exactly what it was before the call (the call
site's page has interception off and none of the three fresh handlers
attached). -/
theorem waitForNetworkIdle_restores_observers (p : PageState) (h1 h2 h3 : Nat)
    (ex : WaitExit) (hi : p.interception = false)
    (f1 : ("request", h1) ∉ p.listeners)
    (f2 : ("requestfinished", h2) ∉ p.listeners)
    (f3 : ("requestfailed", h3) ∉ p.listeners) :
    waitForNetworkIdlePage p h1 h2 h3 ex = p := by
  obtain ⟨pi, pl⟩ := p
  replace hi : pi = false := hi
  subst hi
  replace f1 : ("request", h1) ∉ pl := f1
  replace f2 : ("requestfinished", h2) ∉ pl := f2
  replace f3 : ("requestfailed", h3) ∉ pl := f3
  cases ex <;>
    simp [waitForNetworkIdlePage, pageOn, pageOff, List.append_assoc,
      removeListener_append_of_notMem f1, removeListener_append_of_notMem f2,
      removeListener_append_of_notMem f3]

/-- Witness for C8: a page with one unrelated listener and interception off is
returned unchanged after a timeout exit. -/
theorem waitForNetworkIdle_restores_observers_witness :
    waitForNetworkIdlePage ⟨false, [("error", 9)]⟩ 1 2 3 WaitExit.timeout =
      ⟨false, [("error", 9)]⟩ :=
  waitForNetworkIdle_restores_observers ⟨false, [("error", 9)]⟩ 1 2 3
    WaitExit.timeout rfl (by decide) (by decide) (by decide)

/-- Witness for C9: a key containing a separator and a `..` segment is
sanitized into the cache directory; the concrete path is evaluated. -/
theorem cache_path_confined_witness :
    (∃ s, generateCacheFilePath ".pdfcache" "../a/b" 3 =
        ".pdfcache" ++ "/" ++ s ++ "_" ++ Nat.repr 3 ++ ".pdf" ∧
      s = sanitizeKey "../a/b" ∧
      s.length ≤ 200 ∧
      (∀ c ∈ s.data, isSafeChar c = true) ∧
      (∀ c ∈ (s ++ "_" ++ Nat.repr 3 ++ ".pdf").data, c ≠ '/')) ∧
    generateCacheFilePath ".pdfcache" "../a/b" 3 = ".pdfcache/___a_b_3.pdf" :=
  ⟨cache_path_confined ".pdfcache" "../a/b" 3, rfl⟩
